import Mathlib

/-!
Verification development for the Kiali security-policy graph appender
(`graph/telemetry/istio/appender/security_policy.go`).

The Go code is shallowly embedded as executable Lean definitions:

* Go `map` values become association lists (`List (String × _)`) with
  first-occurrence lookup and in-place upsert, which matches Go map
  read/write semantics extensionally.
* `float64` rate values are modelled by exact rationals `ℚ`; every
  arithmetic operation the code performs on them (assignment, addition,
  division, multiplication by 100) is modelled exactly.
* The Prometheus vector `model.Vector` becomes `List Sample`, where a
  sample's label set `model.Metric` is restricted to the eleven labels
  the code actually reads, each an `Option String` (`none` = label absent).
* The metrics backend (`promQuery`, an external collaborator per spec §6)
  is an oracle parameter `String → Int → List Sample` mapping a query
  string and evaluation instant to a result vector.
-/

namespace Kiali

/-- Appender name constant from the source. -/
def SecurityPolicyAppenderName : String := "securityPolicy"

/-- The mutual-TLS connection-security-policy label constant from the source. -/
def policyMTLS : String := "mutual_tls"

/-- Modelled from the spec: the node-kind tag `service` used by the Node
Identity Resolver (`graph.NodeTypeService`, not included under `src/`). -/
def NodeTypeService : String := "service"

/-- Modelled from the spec: the node-kind tag `workload`. -/
def NodeTypeWorkload : String := "workload"

/-- Modelled from the spec: the node-kind tag `app`. -/
def NodeTypeApp : String := "app"

/-- Modelled from the spec: the node-kind tag `unknown`. -/
def NodeTypeUnknown : String := "unknown"

/-- Modelled from the spec: the fixed metadata key under which the derived
mTLS percentage is written (`graph.IsMTLS`, not included under `src/`). -/
def IsMTLS : String := "isMTLS"

/-- Modelled from the spec: whether a graph-type mode keys node identity by
logical application+version rather than by literal workload name (§4.1:
"a mode selects whether identity is keyed by literal workload name or by
logical application+version"). -/
def graphTypeIsApp (gt : String) : Bool := gt == "app" || gt == "versionedApp"

/-- Modelled from the spec: the Node Identity Resolver `graph.Id`
(§4.1, not included under `src/`).  `resolveIdentity(namespace,
serviceName, workloadNamespace, workload, app, version, graphTypeMode)
-> (id, kind)`: empty strings mean absence; if the service name is
present and no workload/app/version is present the kind is `service`;
if workload/app/version are present the kind is `workload` or `app`
depending on the graph-type mode; otherwise `unknown`.  The ID string is
a deterministic function of the identity tuple under the active mode, so
identical tuples always collapse to the same ID (§3 Node invariant). -/
def graphId (ns svcName wlNs wl app ver gt : String) : String × String :=
  if svcName != "" && wl == "" && app == "" && ver == "" then
    ("svc_" ++ ns ++ "_" ++ svcName, NodeTypeService)
  else if wl != "" || app != "" || ver != "" then
    if graphTypeIsApp gt then
      ("app_" ++ ns ++ "_" ++ app ++ "_" ++ ver, NodeTypeApp)
    else
      ("wl_" ++ wlNs ++ "_" ++ wl, NodeTypeWorkload)
  else
    ("unknown_" ++ ns, NodeTypeUnknown)

/-- `PolicyRates`: mapping from a connection-security-policy label to an
aggregated rate value (`type PolicyRates map[string]float64`). -/
abbrev PolicyRates := List (String × ℚ)

/-- The Policy Aggregator `securityPolicyMap : map[string]PolicyRates`,
keyed by the composite string `"<source-ID> <dest-ID>"`. -/
abbrev SPMap := List (String × PolicyRates)

/-- First-occurrence lookup in a `PolicyRates` map (Go map read). -/
def lookupRate : PolicyRates → String → Option ℚ
  | [], _ => none
  | (c, v) :: rest, csp => if c = csp then some v else lookupRate rest csp

/-- In-place upsert in a `PolicyRates` map (Go `policyRates[csp] = val`). -/
def setRate : PolicyRates → String → ℚ → PolicyRates
  | [], csp, val => [(csp, val)]
  | (c, v) :: rest, csp, val =>
    if c = csp then (c, val) :: rest else (c, v) :: setRate rest csp val

/-- First-occurrence lookup in the aggregator (Go `securityPolicyMap[key]`). -/
def lookupPolicy : SPMap → String → Option PolicyRates
  | [], _ => none
  | (k, p) :: rest, key => if k = key then some p else lookupPolicy rest key

/-- In-place upsert in the aggregator (Go `securityPolicyMap[key] = ...`). -/
def setPolicy : SPMap → String → PolicyRates → SPMap
  | [], key, pr => [(key, pr)]
  | (k, p) :: rest, key, pr =>
    if k = key then (k, pr) :: rest else (k, p) :: setPolicy rest key pr

/-- The composite aggregator key computed by `addSecurityPolicy`:
`sourceId` from `graph.Id(sourceNs, sourceSvc, sourceNs, sourceWl,
sourceApp, sourceVer, graphType)`, `destId` from `graph.Id(destSvcNs,
destSvc, destWlNs, destWl, destApp, destVer, graphType)`, joined as
`"<sourceId> <destId>"`. -/
def policyKey (gt sourceNs sourceSvc sourceWl sourceApp sourceVer
    destSvcNs destSvc destWlNs destWl destApp destVer : String) : String :=
  (graphId sourceNs sourceSvc sourceNs sourceWl sourceApp sourceVer gt).1 ++ " " ++
    (graphId destSvcNs destSvc destWlNs destWl destApp destVer gt).1

/-- Embedding of `SecurityPolicyAppender.addSecurityPolicy`: resolve the
source and destination IDs, build the composite key, fetch (or create
empty) the key's `PolicyRates`, and store `val` under label `csp`. -/
def addSecurityPolicy (gt : String) (securityPolicyMap : SPMap) (csp : String)
    (val : ℚ) (sourceNs sourceSvc sourceWl sourceApp sourceVer
    destSvcNs destSvc destWlNs destWl destApp destVer : String) : SPMap :=
  let key := policyKey gt sourceNs sourceSvc sourceWl sourceApp sourceVer
    destSvcNs destSvc destWlNs destWl destApp destVer
  let policyRates := (lookupPolicy securityPolicyMap key).getD []
  setPolicy securityPolicyMap key (setRate policyRates csp val)

/-- A telemetry series' label set (`model.Metric`), restricted to the
eleven labels `populateSecurityPolicyMap` reads; `none` means the label
is absent from the series. -/
structure Metric where
  source_workload_namespace : Option String
  source_workload : Option String
  source_app : Option String
  source_version : Option String
  destination_service_namespace : Option String
  destination_service_name : Option String
  destination_workload_namespace : Option String
  destination_workload : Option String
  destination_app : Option String
  destination_version : Option String
  connection_security_policy : Option String
deriving DecidableEq

/-- One telemetry series of a query-result vector (`model.Sample`). -/
structure Sample where
  metric : Metric
  value : ℚ
deriving DecidableEq

/-- The required-labels guard of `populateSecurityPolicyMap` (line 108):
the series is processed iff every one of the eleven grouping labels is
present. -/
def hasRequiredLabels (m : Metric) : Bool :=
  m.source_workload_namespace.isSome && m.source_workload.isSome &&
  m.source_app.isSome && m.source_version.isSome &&
  m.destination_service_namespace.isSome && m.destination_service_name.isSome &&
  m.destination_workload_namespace.isSome && m.destination_workload.isSome &&
  m.destination_app.isSome && m.destination_version.isSome &&
  m.connection_security_policy.isSome

/-- The Go local `sourceWlNs := string(lSourceWlNs)` (total via default ""). -/
def mSourceWlNs (s : Sample) : String := s.metric.source_workload_namespace.getD ""

/-- The Go local `sourceWl`. -/
def mSourceWl (s : Sample) : String := s.metric.source_workload.getD ""

/-- The Go local `sourceApp`. -/
def mSourceApp (s : Sample) : String := s.metric.source_app.getD ""

/-- The Go local `sourceVer`. -/
def mSourceVer (s : Sample) : String := s.metric.source_version.getD ""

/-- The Go local `destSvcNs`. -/
def mDestSvcNs (s : Sample) : String := s.metric.destination_service_namespace.getD ""

/-- The Go local `destSvc`. -/
def mDestSvc (s : Sample) : String := s.metric.destination_service_name.getD ""

/-- The Go local `destWlNs`. -/
def mDestWlNs (s : Sample) : String := s.metric.destination_workload_namespace.getD ""

/-- The Go local `destWl`. -/
def mDestWl (s : Sample) : String := s.metric.destination_workload.getD ""

/-- The Go local `destApp`. -/
def mDestApp (s : Sample) : String := s.metric.destination_app.getD ""

/-- The Go local `destVer`. -/
def mDestVer (s : Sample) : String := s.metric.destination_version.getD ""

/-- The Go local `csp := string(lCsp)`. -/
def mCsp (s : Sample) : String := s.metric.connection_security_policy.getD ""

/-- The loop body of `populateSecurityPolicyMap` for one series: skip the
series if a required label is missing; otherwise, when service-node
injection is on and the destination service name is set and the
destination does not already resolve to a `service`-kind node, emit the
two split observations (caller → service node, service node → dest
workload/app node); in every other case emit the single caller → dest
observation. -/
def processSample (aGraphType : String) (aInjectServiceNodes : Bool)
    (securityPolicyMap : SPMap) (s : Sample) : SPMap :=
  if hasRequiredLabels s.metric then
    if aInjectServiceNodes then
      if s.metric.destination_service_name.isSome &&
          ((graphId (mDestSvcNs s) (mDestSvc s) (mDestWlNs s) (mDestWl s)
            (mDestApp s) (mDestVer s) aGraphType).2 != NodeTypeService) then
        addSecurityPolicy aGraphType
          (addSecurityPolicy aGraphType securityPolicyMap (mCsp s) s.value
            (mSourceWlNs s) "" (mSourceWl s) (mSourceApp s) (mSourceVer s)
            (mDestSvcNs s) (mDestSvc s) "" "" "" "")
          (mCsp s) s.value
          (mDestSvcNs s) (mDestSvc s) "" "" ""
          (mDestSvcNs s) (mDestSvc s) (mDestWlNs s) (mDestWl s) (mDestApp s) (mDestVer s)
      else
        addSecurityPolicy aGraphType securityPolicyMap (mCsp s) s.value
          (mSourceWlNs s) "" (mSourceWl s) (mSourceApp s) (mSourceVer s)
          (mDestSvcNs s) (mDestSvc s) (mDestWlNs s) (mDestWl s) (mDestApp s) (mDestVer s)
    else
      addSecurityPolicy aGraphType securityPolicyMap (mCsp s) s.value
        (mSourceWlNs s) "" (mSourceWl s) (mSourceApp s) (mSourceVer s)
        (mDestSvcNs s) (mDestSvc s) (mDestWlNs s) (mDestWl s) (mDestApp s) (mDestVer s)
  else securityPolicyMap

/-- Embedding of `SecurityPolicyAppender.populateSecurityPolicyMap`:
fold the per-series step over the query-result vector in order. -/
def populateSecurityPolicyMap (aGraphType : String) (aInjectServiceNodes : Bool)
    (securityPolicyMap : SPMap) (vector : List Sample) : SPMap :=
  vector.foldl (processSample aGraphType aInjectServiceNodes) securityPolicyMap

/-- Per-edge metadata (`graph.Metadata`); values restricted to the
rationals modelling the `float64` values this appender writes. -/
abbrev Metadata := List (String × ℚ)

/-- First-occurrence metadata lookup. -/
def lookupMeta : Metadata → String → Option ℚ
  | [], _ => none
  | (k, v) :: rest, key => if k = key then some v else lookupMeta rest key

/-- In-place metadata upsert (Go `e.Metadata[graph.IsMTLS] = ...`). -/
def setMeta : Metadata → String → ℚ → Metadata
  | [], key, val => [(key, val)]
  | (k, v) :: rest, key, val =>
    if k = key then (k, val) :: rest else (k, v) :: setMeta rest key val

/-- A graph edge (`graph.Edge`): the IDs of its source and dest nodes and
its mutable metadata. -/
structure Edge where
  SourceID : String
  DestID : String
  Metadata : Metadata
deriving DecidableEq

/-- A graph node (`graph.Node`): its ID and the outgoing edges it owns. -/
structure Node where
  ID : String
  Edges : List Edge
deriving DecidableEq

/-- The `graph.TrafficMap`: mapping from node ID to node. -/
abbrev TrafficMap := List (String × Node)

/-- First-occurrence node lookup in a traffic map. -/
def lookupNode : TrafficMap → String → Option Node
  | [], _ => none
  | (k, n) :: rest, key => if k = key then some n else lookupNode rest key

/-- The rate-classifying loop of `applySecurityPolicy` (lines 160-168):
walk the `PolicyRates` entries accumulating `(mtls, other)` — an entry
labelled `mutual_tls` replaces the `mtls` accumulator, any other entry is
added into the `other` accumulator. -/
def computeRatesAux : PolicyRates → ℚ × ℚ → ℚ × ℚ
  | [], acc => acc
  | p :: rest, acc =>
    computeRatesAux rest (if p.1 = policyMTLS then (p.2, acc.2) else (acc.1, acc.2 + p.2))

/-- The `(mtls, other)` pair computed by `applySecurityPolicy` for one
edge's `PolicyRates`, starting from `mtls := 0.0; other := 0.0`. -/
def computeRates (pr : PolicyRates) : ℚ × ℚ := computeRatesAux pr (0, 0)

/-- The per-edge body of `applySecurityPolicy`: look the edge's composite
key up in the aggregator; if found, write `mtls / (mtls + other) * 100`
into the edge metadata under the mTLS key; if not found, leave the edge
untouched. -/
def applyToEdge (securityPolicyMap : SPMap) (e : Edge) : Edge :=
  match lookupPolicy securityPolicyMap (e.SourceID ++ " " ++ e.DestID) with
  | some policyRates =>
    let rates := computeRates policyRates
    { e with Metadata := setMeta e.Metadata IsMTLS (rates.1 / (rates.1 + rates.2) * 100) }
  | none => e

/-- Embedding of `applySecurityPolicy`: for every node of the traffic map
and every edge of that node, apply the per-edge body. -/
def applySecurityPolicy (trafficMap : TrafficMap) (securityPolicyMap : SPMap) : TrafficMap :=
  trafficMap.map (fun p => (p.1, { p.2 with Edges := p.2.Edges.map (applyToEdge securityPolicyMap) }))

/-- Per-namespace window parameters (`graph.NamespaceInfo`): the query
range duration (held directly in seconds, the unit the query builder
formats) and, modelled from the spec (§4.2), whether the namespace is an
infrastructure/control-plane ("istio") namespace. -/
structure NamespaceInfo where
  Name : String
  DurationSeconds : Int
  IsIstio : Bool
deriving DecidableEq

/-- The zero value a Go map read returns for a missing namespace key. -/
def zeroNamespaceInfo : NamespaceInfo := { Name := "", DurationSeconds := 0, IsIstio := false }

/-- Go map read `a.Namespaces[namespace]` (zero value when absent). -/
def lookupNsInfo : List (String × NamespaceInfo) → String → NamespaceInfo
  | [], _ => zeroNamespaceInfo
  | (k, i) :: rest, ns => if k = ns then i else lookupNsInfo rest ns

/-- The `SecurityPolicyAppender` configuration struct. -/
structure SecurityPolicyAppender where
  GraphType : String
  InjectServiceNodes : Bool
  Namespaces : List (String × NamespaceInfo)
  QueryTime : Int
deriving DecidableEq

/-- `Name()` of the appender. -/
def SecurityPolicyAppender.name (_ : SecurityPolicyAppender) : String :=
  SecurityPolicyAppenderName

/-- Modelled from the spec: the Namespace Exclusion Filter
`getIstioNamespaces` (§4.2, not included under `src/`): the names of the
namespaces flagged as infrastructure/control-plane namespaces; empty
input yields an empty exclusion set. -/
def getIstioNamespaces (nss : List (String × NamespaceInfo)) : List String :=
  (nss.filter (fun p => p.2.IsIstio)).map (fun p => p.2.Name)

/-- The `by (...)` grouping label list shared by both queries. -/
def groupBy : String :=
  "source_workload_namespace,source_workload,source_app,source_version,destination_service_namespace,destination_service_name,destination_workload_namespace,destination_workload,destination_app,destination_version,connection_security_policy"

/-- The first (traffic-entering-the-namespace) query string built by
`appendGraph` (lines 61-66). -/
def outboundQuery (ns : String) (durationSecs : Int) : String :=
  "sum(rate(istio_requests_total\x7breporter=\"destination\",source_workload_namespace!=\"" ++
    ns ++ "\",destination_service_namespace=\"" ++ ns ++ "\"\x7d[" ++
    toString durationSecs ++ "s]) > 0) by (" ++ groupBy ++ ")"

/-- The `destinationWorkloadNamespaceQuery` exclusion clause (lines
71-76): empty when no namespaces are excluded, otherwise a negative
regex-match on the excluded names joined by `|`. -/
def destinationWorkloadNamespaceQuery (excludedIstioNamespaces : List String) : String :=
  if excludedIstioNamespaces.length > 0 then
    ",destination_service_namespace!~\"" ++
      String.intercalate "|" excludedIstioNamespaces ++ "\""
  else ""

/-- The second (traffic-leaving-the-namespace) query string with an
explicit clause argument in the position `appendGraph` splices
`destinationWorkloadNamespaceQuery` into (lines 77-82). -/
def inboundQueryWithClause (ns clause : String) (durationSecs : Int) : String :=
  "sum(rate(istio_requests_total\x7breporter=\"destination\",source_workload_namespace=\"" ++
    ns ++ "\"" ++ clause ++ "\x7d[" ++
    toString durationSecs ++ "s]) > 0) by (" ++ groupBy ++ ")"

/-- The second (traffic-leaving-the-namespace) query string built by
`appendGraph`. -/
def inboundQuery (ns : String) (excluded : List String) (durationSecs : Int) : String :=
  inboundQueryWithClause ns (destinationWorkloadNamespaceQuery excluded) durationSecs

/-- Embedding of the private `appendGraph`: build and issue the two
queries through the metrics oracle at the fixed instant `a.QueryTime`,
populate the aggregator with the first query's vector then the second's,
and apply it to the traffic map.  Returns the annotated traffic map and
the list of `(query, instant)` pairs issued, in order. -/
def appendGraphImpl (a : SecurityPolicyAppender) (oracle : String → Int → List Sample)
    (trafficMap : TrafficMap) (ns : String) : TrafficMap × List (String × Int) :=
  let duration := (lookupNsInfo a.Namespaces ns).DurationSeconds
  let outQ := outboundQuery ns duration
  let outVector := oracle outQ a.QueryTime
  let inQ := inboundQuery ns (getIstioNamespaces a.Namespaces) duration
  let inVector := oracle inQ a.QueryTime
  let securityPolicyMap :=
    populateSecurityPolicyMap a.GraphType a.InjectServiceNodes
      (populateSecurityPolicyMap a.GraphType a.InjectServiceNodes [] outVector) inVector
  (applySecurityPolicy trafficMap securityPolicyMap, [(outQ, a.QueryTime), (inQ, a.QueryTime)])

/-- Embedding of the public `AppendGraph`: return immediately when the
traffic map is empty; otherwise ensure the shared metrics client handle
exists (tracked as a `Bool`) and run `appendGraph`.  Result: the traffic
map, the client-handle state, and the issued `(query, instant)` list. -/
def AppendGraph (a : SecurityPolicyAppender) (oracle : String → Int → List Sample)
    (trafficMap : TrafficMap) (promClientInitialized : Bool) (ns : String) :
    TrafficMap × Bool × List (String × Int) :=
  if trafficMap.length = 0 then (trafficMap, promClientInitialized, [])
  else
    let r := appendGraphImpl a oracle trafficMap ns
    (r.1, true, r.2)

/-- The value stored in the aggregator `m` under composite key `key` and
policy label `csp` (absent key or label gives `none`). -/
def slotVal (m : SPMap) (key csp : String) : Option ℚ :=
  lookupRate ((lookupPolicy m key).getD []) csp

/-- Whether the aggregator has an entry for composite key `key`. -/
def keyHas (m : SPMap) (key : String) : Bool :=
  (lookupPolicy m key).isSome

/-- The argument tuple of one `addSecurityPolicy` call (one logical
observation emitted into the Policy Aggregator). -/
structure Obs where
  csp : String
  val : ℚ
  sourceNs : String
  sourceSvc : String
  sourceWl : String
  sourceApp : String
  sourceVer : String
  destSvcNs : String
  destSvc : String
  destWlNs : String
  destWl : String
  destApp : String
  destVer : String
deriving DecidableEq

/-- Apply one observation to the aggregator via `addSecurityPolicy`. -/
def applyObs (gt : String) (m : SPMap) (o : Obs) : SPMap :=
  addSecurityPolicy gt m o.csp o.val o.sourceNs o.sourceSvc o.sourceWl o.sourceApp
    o.sourceVer o.destSvcNs o.destSvc o.destWlNs o.destWl o.destApp o.destVer

/-- The composite key an observation is stored under. -/
def obsKey (gt : String) (o : Obs) : String :=
  policyKey gt o.sourceNs o.sourceSvc o.sourceWl o.sourceApp o.sourceVer
    o.destSvcNs o.destSvc o.destWlNs o.destWl o.destApp o.destVer

/-- The list of observations `processSample` emits for one series: none
when a required label is missing, the two split observations in the
service-injection case, the single caller → dest observation otherwise. -/
def observations (aGraphType : String) (aInjectServiceNodes : Bool) (s : Sample) : List Obs :=
  if hasRequiredLabels s.metric then
    if aInjectServiceNodes then
      if s.metric.destination_service_name.isSome &&
          ((graphId (mDestSvcNs s) (mDestSvc s) (mDestWlNs s) (mDestWl s)
            (mDestApp s) (mDestVer s) aGraphType).2 != NodeTypeService) then
        [⟨mCsp s, s.value, mSourceWlNs s, "", mSourceWl s, mSourceApp s, mSourceVer s,
          mDestSvcNs s, mDestSvc s, "", "", "", ""⟩,
         ⟨mCsp s, s.value, mDestSvcNs s, mDestSvc s, "", "", "",
          mDestSvcNs s, mDestSvc s, mDestWlNs s, mDestWl s, mDestApp s, mDestVer s⟩]
      else
        [⟨mCsp s, s.value, mSourceWlNs s, "", mSourceWl s, mSourceApp s, mSourceVer s,
          mDestSvcNs s, mDestSvc s, mDestWlNs s, mDestWl s, mDestApp s, mDestVer s⟩]
    else
      [⟨mCsp s, s.value, mSourceWlNs s, "", mSourceWl s, mSourceApp s, mSourceVer s,
        mDestSvcNs s, mDestSvc s, mDestWlNs s, mDestWl s, mDestApp s, mDestVer s⟩]
  else []

/-- The spec's `mtlsRate`: "the rate recorded under the mutual-TLS policy
label (0 if absent)".  Stated from the spec's words, to be compared with
the loop the code runs (`computeRates`). -/
def specMtlsRate (pr : PolicyRates) : ℚ :=
  (lookupRate pr policyMTLS).getD 0

/-- The spec's `otherRate`: "the sum of all other recorded policy-label
rates".  Stated from the spec's words, to be compared with
`computeRates`. -/
def specOtherRate : PolicyRates → ℚ
  | [] => 0
  | (c, v) :: rest => if c = policyMTLS then specOtherRate rest else v + specOtherRate rest

/-- Concrete appender: workload graph type, service-node injection off. -/
def exAppender : SecurityPolicyAppender :=
  { GraphType := "workload", InjectServiceNodes := false, Namespaces := [], QueryTime := 0 }

/-- Concrete appender with service-node injection on. -/
def exAppenderInject : SecurityPolicyAppender :=
  { GraphType := "workload", InjectServiceNodes := true, Namespaces := [], QueryTime := 0 }

/-- A concrete series label set with all eleven labels present. -/
def exMetric : Metric :=
  { source_workload_namespace := some "alpha", source_workload := some "w",
    source_app := some "x", source_version := some "v",
    destination_service_namespace := some "beta", destination_service_name := some "s",
    destination_workload_namespace := some "beta", destination_workload := some "dw",
    destination_app := some "da", destination_version := some "dv",
    connection_security_policy := some "mutual_tls" }

/-- The same label set with `connection_security_policy` missing. -/
def exMetricNoCsp : Metric :=
  { exMetric with connection_security_policy := none }

/-- A concrete well-formed series with rate 5. -/
def exSample : Sample := { metric := exMetric, value := 5 }

/-- A concrete well-formed series with rate 7 (outbound fixture). -/
def exSampleOut : Sample := { metric := exMetric, value := 7 }

/-- A concrete well-formed series with rate 3 (inbound fixture). -/
def exSampleIn : Sample := { metric := exMetric, value := 3 }

/-- A concrete well-formed series with rate 0 (divide-by-zero fixture). -/
def exSampleZero : Sample := { metric := exMetric, value := 0 }

/-- A concrete series missing the policy label. -/
def exSampleNoCsp : Sample := { metric := exMetricNoCsp, value := 11 }

/-- The composite key `exSample` is stored under (workload graph type). -/
def exKey : String := "wl_alpha_w wl_beta_dw"

/-- A concrete edge whose composite key is "A B". -/
def exEdgeAB : Edge := { SourceID := "A", DestID := "B", Metadata := [] }

/-- A concrete edge, with pre-existing metadata, whose key "C D" the
example aggregators do not contain. -/
def exEdgeCD : Edge := { SourceID := "C", DestID := "D", Metadata := [("x", 1)] }

/-- A concrete edge matching `exKey`. -/
def exEdgeTele : Edge := { SourceID := "wl_alpha_w", DestID := "wl_beta_dw", Metadata := [] }

/-- A concrete aggregator: key "A B" with rates mutual_tls 8, plaintext 2. -/
def exSpm80 : SPMap := [("A B", [("mutual_tls", 8), ("plaintext", 2)])]

/-- A concrete aggregator: key "A B" with rates mutual_tls 5 only. -/
def exSpm100 : SPMap := [("A B", [("mutual_tls", 5)])]

/-- A concrete traffic map: node "A" owning the single edge A → B. -/
def exTm : TrafficMap := [("A", { ID := "A", Edges := [exEdgeAB] })]

/-- A concrete aggregator reached by populating from the zero-rate series:
all of `exKey`'s policy rates are zero. -/
def exSpmZero : SPMap := populateSecurityPolicyMap "workload" false [] [exSampleZero]

theorem lookupRate_setRate_self (pr : PolicyRates) (csp : String) (val : ℚ) :
    lookupRate (setRate pr csp val) csp = some val := by
  induction pr with
  | nil => simp [setRate, lookupRate]
  | cons p rest ih =>
    obtain ⟨c, v⟩ := p
    by_cases h : c = csp
    · simp [setRate, h, lookupRate]
    · simp [setRate, h, lookupRate, ih]

theorem lookupRate_setRate_ne (pr : PolicyRates) (csp : String) (val : ℚ) (c : String)
    (h : c ≠ csp) : lookupRate (setRate pr csp val) c = lookupRate pr c := by
  induction pr with
  | nil => simp [setRate, lookupRate, Ne.symm h]
  | cons p rest ih =>
    obtain ⟨c', v⟩ := p
    by_cases h2 : c' = csp
    · subst h2
      simp only [setRate, if_pos rfl, lookupRate, if_neg (Ne.symm h)]
    · simp only [setRate, if_neg h2, lookupRate]
      by_cases h3 : c' = c
      · simp [h3]
      · simp [h3, ih]

theorem lookupPolicy_setPolicy_self (m : SPMap) (key : String) (pr : PolicyRates) :
    lookupPolicy (setPolicy m key pr) key = some pr := by
  induction m with
  | nil => simp [setPolicy, lookupPolicy]
  | cons p rest ih =>
    obtain ⟨k, q⟩ := p
    by_cases h : k = key
    · simp [setPolicy, h, lookupPolicy]
    · simp [setPolicy, h, lookupPolicy, ih]

theorem lookupPolicy_setPolicy_ne (m : SPMap) (key : String) (pr : PolicyRates) (k : String)
    (h : k ≠ key) : lookupPolicy (setPolicy m key pr) k = lookupPolicy m k := by
  induction m with
  | nil =>
    simp only [setPolicy, lookupPolicy, if_neg (Ne.symm h)]
  | cons p rest ih =>
    obtain ⟨k', q⟩ := p
    by_cases h2 : k' = key
    · subst h2
      simp only [setPolicy, if_pos rfl, lookupPolicy, if_neg (Ne.symm h)]
    · simp only [setPolicy, if_neg h2, lookupPolicy]
      by_cases h3 : k' = k
      · simp [h3]
      · simp [h3, ih]

theorem lookupMeta_setMeta_self (md : Metadata) (key : String) (val : ℚ) :
    lookupMeta (setMeta md key val) key = some val := by
  induction md with
  | nil => simp [setMeta, lookupMeta]
  | cons p rest ih =>
    obtain ⟨k, v⟩ := p
    by_cases h : k = key
    · simp [setMeta, h, lookupMeta]
    · simp [setMeta, h, lookupMeta, ih]

theorem lookupMeta_setMeta_ne (md : Metadata) (key : String) (val : ℚ) (k : String)
    (h : k ≠ key) : lookupMeta (setMeta md key val) k = lookupMeta md k := by
  induction md with
  | nil => simp only [setMeta, lookupMeta, if_neg (Ne.symm h)]
  | cons p rest ih =>
    obtain ⟨k', v⟩ := p
    by_cases h2 : k' = key
    · subst h2
      simp only [setMeta, if_pos rfl, lookupMeta, if_neg (Ne.symm h)]
    · simp only [setMeta, if_neg h2, lookupMeta]
      by_cases h3 : k' = k
      · simp [h3]
      · simp [h3, ih]

theorem slotVal_add_self (gt : String) (m : SPMap) (csp : String) (val : ℚ)
    (sNs sSvc sWl sApp sVer dSNs dSvc dWNs dWl dApp dVer : String) :
    slotVal (addSecurityPolicy gt m csp val sNs sSvc sWl sApp sVer dSNs dSvc dWNs dWl dApp dVer)
      (policyKey gt sNs sSvc sWl sApp sVer dSNs dSvc dWNs dWl dApp dVer) csp = some val := by
  simp [addSecurityPolicy, slotVal, lookupPolicy_setPolicy_self, lookupRate_setRate_self]

theorem slotVal_add_of_ne (gt : String) (m : SPMap) (csp : String) (val : ℚ)
    (sNs sSvc sWl sApp sVer dSNs dSvc dWNs dWl dApp dVer k c : String)
    (h : ¬(k = policyKey gt sNs sSvc sWl sApp sVer dSNs dSvc dWNs dWl dApp dVer ∧ c = csp)) :
    slotVal (addSecurityPolicy gt m csp val sNs sSvc sWl sApp sVer dSNs dSvc dWNs dWl dApp dVer) k c
      = slotVal m k c := by
  by_cases hk : k = policyKey gt sNs sSvc sWl sApp sVer dSNs dSvc dWNs dWl dApp dVer
  · have hc : c ≠ csp := fun hc => h ⟨hk, hc⟩
    subst hk
    simp [addSecurityPolicy, slotVal, lookupPolicy_setPolicy_self,
      lookupRate_setRate_ne _ _ _ _ hc]
  · simp [addSecurityPolicy, slotVal, lookupPolicy_setPolicy_ne _ _ _ _ hk]

theorem keyHas_add_self (gt : String) (m : SPMap) (csp : String) (val : ℚ)
    (sNs sSvc sWl sApp sVer dSNs dSvc dWNs dWl dApp dVer : String) :
    keyHas (addSecurityPolicy gt m csp val sNs sSvc sWl sApp sVer dSNs dSvc dWNs dWl dApp dVer)
      (policyKey gt sNs sSvc sWl sApp sVer dSNs dSvc dWNs dWl dApp dVer) = true := by
  simp [addSecurityPolicy, keyHas, lookupPolicy_setPolicy_self]

theorem keyHas_add_of_ne (gt : String) (m : SPMap) (csp : String) (val : ℚ)
    (sNs sSvc sWl sApp sVer dSNs dSvc dWNs dWl dApp dVer k : String)
    (h : k ≠ policyKey gt sNs sSvc sWl sApp sVer dSNs dSvc dWNs dWl dApp dVer) :
    keyHas (addSecurityPolicy gt m csp val sNs sSvc sWl sApp sVer dSNs dSvc dWNs dWl dApp dVer) k
      = keyHas m k := by
  simp [addSecurityPolicy, keyHas, lookupPolicy_setPolicy_ne _ _ _ _ h]

theorem slotVal_applyObs_self (gt : String) (o : Obs) (m : SPMap) :
    slotVal (applyObs gt m o) (obsKey gt o) o.csp = some o.val := by
  simp only [applyObs, obsKey]
  exact slotVal_add_self gt m o.csp o.val o.sourceNs o.sourceSvc o.sourceWl o.sourceApp
    o.sourceVer o.destSvcNs o.destSvc o.destWlNs o.destWl o.destApp o.destVer

theorem slotVal_applyObs_ne (gt : String) (o : Obs) (m : SPMap) (k c : String)
    (h : ¬(k = obsKey gt o ∧ c = o.csp)) :
    slotVal (applyObs gt m o) k c = slotVal m k c := by
  simp only [applyObs]
  exact slotVal_add_of_ne gt m o.csp o.val o.sourceNs o.sourceSvc o.sourceWl o.sourceApp
    o.sourceVer o.destSvcNs o.destSvc o.destWlNs o.destWl o.destApp o.destVer k c
    (by simpa [obsKey] using h)

theorem keyHas_applyObs_self (gt : String) (o : Obs) (m : SPMap) :
    keyHas (applyObs gt m o) (obsKey gt o) = true := by
  simp only [applyObs, obsKey]
  exact keyHas_add_self gt m o.csp o.val o.sourceNs o.sourceSvc o.sourceWl o.sourceApp
    o.sourceVer o.destSvcNs o.destSvc o.destWlNs o.destWl o.destApp o.destVer

theorem keyHas_applyObs_ne (gt : String) (o : Obs) (m : SPMap) (k : String)
    (h : k ≠ obsKey gt o) :
    keyHas (applyObs gt m o) k = keyHas m k := by
  simp only [applyObs]
  exact keyHas_add_of_ne gt m o.csp o.val o.sourceNs o.sourceSvc o.sourceWl o.sourceApp
    o.sourceVer o.destSvcNs o.destSvc o.destWlNs o.destWl o.destApp o.destVer k
    (by simpa [obsKey] using h)

theorem applyObs_slot_det (gt : String) (o : Obs) (m m' : SPMap) (k c : String) :
    slotVal (applyObs gt m o) k c = slotVal (applyObs gt m' o) k c ∨
    (slotVal (applyObs gt m o) k c = slotVal m k c ∧
     slotVal (applyObs gt m' o) k c = slotVal m' k c) := by
  by_cases h : k = obsKey gt o ∧ c = o.csp
  · left
    obtain ⟨hk, hc⟩ := h
    subst hk; subst hc
    rw [slotVal_applyObs_self, slotVal_applyObs_self]
  · right
    exact ⟨slotVal_applyObs_ne gt o m k c h, slotVal_applyObs_ne gt o m' k c h⟩

theorem applyObs_key_det (gt : String) (o : Obs) (m m' : SPMap) (k : String) :
    keyHas (applyObs gt m o) k = keyHas (applyObs gt m' o) k ∨
    (keyHas (applyObs gt m o) k = keyHas m k ∧
     keyHas (applyObs gt m' o) k = keyHas m' k) := by
  by_cases h : k = obsKey gt o
  · left
    subst h
    rw [keyHas_applyObs_self, keyHas_applyObs_self]
  · right
    exact ⟨keyHas_applyObs_ne gt o m k h, keyHas_applyObs_ne gt o m' k h⟩

theorem obsFold_slot_det (gt : String) (os : List Obs) (m m' : SPMap) (k c : String) :
    slotVal (os.foldl (applyObs gt) m) k c = slotVal (os.foldl (applyObs gt) m') k c ∨
    (slotVal (os.foldl (applyObs gt) m) k c = slotVal m k c ∧
     slotVal (os.foldl (applyObs gt) m') k c = slotVal m' k c) := by
  induction os generalizing m m' with
  | nil => right; exact ⟨rfl, rfl⟩
  | cons o rest ih =>
    simp only [List.foldl_cons]
    rcases ih (applyObs gt m o) (applyObs gt m' o) with h | ⟨h1, h2⟩
    · left; exact h
    · rcases applyObs_slot_det gt o m m' k c with h3 | ⟨h4, h5⟩
      · left; rw [h1, h2, h3]
      · right; exact ⟨h1.trans h4, h2.trans h5⟩

theorem obsFold_key_det (gt : String) (os : List Obs) (m m' : SPMap) (k : String) :
    keyHas (os.foldl (applyObs gt) m) k = keyHas (os.foldl (applyObs gt) m') k ∨
    (keyHas (os.foldl (applyObs gt) m) k = keyHas m k ∧
     keyHas (os.foldl (applyObs gt) m') k = keyHas m' k) := by
  induction os generalizing m m' with
  | nil => right; exact ⟨rfl, rfl⟩
  | cons o rest ih =>
    simp only [List.foldl_cons]
    rcases ih (applyObs gt m o) (applyObs gt m' o) with h | ⟨h1, h2⟩
    · left; exact h
    · rcases applyObs_key_det gt o m m' k with h3 | ⟨h4, h5⟩
      · left; rw [h1, h2, h3]
      · right; exact ⟨h1.trans h4, h2.trans h5⟩

theorem processSample_eq_obsFold (gt : String) (inj : Bool) (m : SPMap) (s : Sample) :
    processSample gt inj m s = (observations gt inj s).foldl (applyObs gt) m := by
  unfold processSample observations
  by_cases h1 : hasRequiredLabels s.metric
  · simp only [h1, if_true]
    by_cases h2 : inj = true
    · simp only [h2, if_true]
      by_cases h3 : (s.metric.destination_service_name.isSome &&
          ((graphId (mDestSvcNs s) (mDestSvc s) (mDestWlNs s) (mDestWl s)
            (mDestApp s) (mDestVer s) gt).2 != NodeTypeService)) = true
      · simp [h3, applyObs, List.foldl]
      · simp [h3, applyObs, List.foldl]
    · simp only [Bool.not_eq_true] at h2
      simp [h2, applyObs, List.foldl]
  · simp [h1]

theorem processSample_slot_det (gt : String) (inj : Bool) (s : Sample) (m m' : SPMap)
    (k c : String) :
    slotVal (processSample gt inj m s) k c = slotVal (processSample gt inj m' s) k c ∨
    (slotVal (processSample gt inj m s) k c = slotVal m k c ∧
     slotVal (processSample gt inj m' s) k c = slotVal m' k c) := by
  rw [processSample_eq_obsFold, processSample_eq_obsFold]
  exact obsFold_slot_det gt (observations gt inj s) m m' k c

theorem processSample_key_det (gt : String) (inj : Bool) (s : Sample) (m m' : SPMap)
    (k : String) :
    keyHas (processSample gt inj m s) k = keyHas (processSample gt inj m' s) k ∨
    (keyHas (processSample gt inj m s) k = keyHas m k ∧
     keyHas (processSample gt inj m' s) k = keyHas m' k) := by
  rw [processSample_eq_obsFold, processSample_eq_obsFold]
  exact obsFold_key_det gt (observations gt inj s) m m' k

theorem populate_slot_det (gt : String) (inj : Bool) (v : List Sample) (m m' : SPMap)
    (k c : String) :
    slotVal (populateSecurityPolicyMap gt inj m v) k c
      = slotVal (populateSecurityPolicyMap gt inj m' v) k c ∨
    (slotVal (populateSecurityPolicyMap gt inj m v) k c = slotVal m k c ∧
     slotVal (populateSecurityPolicyMap gt inj m' v) k c = slotVal m' k c) := by
  induction v generalizing m m' with
  | nil => right; exact ⟨rfl, rfl⟩
  | cons s rest ih =>
    simp only [populateSecurityPolicyMap, List.foldl_cons] at *
    rcases ih (processSample gt inj m s) (processSample gt inj m' s) with h | ⟨h1, h2⟩
    · left; exact h
    · rcases processSample_slot_det gt inj s m m' k c with h3 | ⟨h4, h5⟩
      · left; rw [h1, h2, h3]
      · right; exact ⟨h1.trans h4, h2.trans h5⟩

theorem populate_key_det (gt : String) (inj : Bool) (v : List Sample) (m m' : SPMap)
    (k : String) :
    keyHas (populateSecurityPolicyMap gt inj m v) k
      = keyHas (populateSecurityPolicyMap gt inj m' v) k ∨
    (keyHas (populateSecurityPolicyMap gt inj m v) k = keyHas m k ∧
     keyHas (populateSecurityPolicyMap gt inj m' v) k = keyHas m' k) := by
  induction v generalizing m m' with
  | nil => right; exact ⟨rfl, rfl⟩
  | cons s rest ih =>
    simp only [populateSecurityPolicyMap, List.foldl_cons] at *
    rcases ih (processSample gt inj m s) (processSample gt inj m' s) with h | ⟨h1, h2⟩
    · left; exact h
    · rcases processSample_key_det gt inj s m m' k with h3 | ⟨h4, h5⟩
      · left; rw [h1, h2, h3]
      · right; exact ⟨h1.trans h4, h2.trans h5⟩

theorem lookupRate_eq_none_of_not_mem (pr : PolicyRates) (c : String)
    (h : c ∉ pr.map Prod.fst) : lookupRate pr c = none := by
  induction pr with
  | nil => rfl
  | cons p rest ih =>
    obtain ⟨c', v⟩ := p
    simp only [List.map_cons, List.mem_cons] at h
    push_neg at h
    simp only [lookupRate, if_neg (fun hh : c' = c => h.1 hh.symm)]
    exact ih h.2

theorem computeRatesAux_eq (pr : PolicyRates) (hnd : (pr.map Prod.fst).Nodup) :
    ∀ m₀ o₀ : ℚ, computeRatesAux pr (m₀, o₀)
      = ((lookupRate pr policyMTLS).getD m₀, o₀ + specOtherRate pr) := by
  induction pr with
  | nil => intro m₀ o₀; simp [computeRatesAux, lookupRate, specOtherRate]
  | cons p rest ih =>
    obtain ⟨c, v⟩ := p
    simp only [List.map_cons, List.nodup_cons] at hnd
    obtain ⟨hmem, hnd2⟩ := hnd
    intro m₀ o₀
    by_cases hc : c = policyMTLS
    · have hstep : computeRatesAux ((c, v) :: rest) (m₀, o₀) = computeRatesAux rest (v, o₀) := by
        simp [computeRatesAux, hc]
      rw [hstep, ih hnd2 v o₀, lookupRate_eq_none_of_not_mem rest policyMTLS (hc ▸ hmem)]
      simp [lookupRate, specOtherRate, hc]
    · have hstep : computeRatesAux ((c, v) :: rest) (m₀, o₀)
          = computeRatesAux rest (m₀, o₀ + v) := by
        simp [computeRatesAux, hc]
      rw [hstep, ih hnd2 m₀ (o₀ + v)]
      simp only [lookupRate, if_neg hc, specOtherRate]
      rw [add_assoc]

theorem computeRates_eq (pr : PolicyRates) (hnd : (pr.map Prod.fst).Nodup) :
    computeRates pr = (specMtlsRate pr, specOtherRate pr) := by
  unfold computeRates specMtlsRate
  rw [computeRatesAux_eq pr hnd 0 0, zero_add]

theorem computeRatesAux_zero (pr : PolicyRates) (hz : ∀ p ∈ pr, p.2 = 0) :
    computeRatesAux pr (0, 0) = (0, 0) := by
  induction pr with
  | nil => rfl
  | cons p rest ih =>
    have hv : p.2 = 0 := hz p (List.mem_cons_self _ _)
    have hrest : ∀ q ∈ rest, q.2 = 0 := fun q hq => hz q (List.mem_cons_of_mem _ hq)
    obtain ⟨c, v⟩ := p
    simp only at hv
    subst hv
    by_cases hc : c = policyMTLS
    · simpa [computeRatesAux, hc] using ih hrest
    · simpa [computeRatesAux, hc] using ih hrest

theorem applyToEdge_SourceID (spm : SPMap) (e : Edge) :
    (applyToEdge spm e).SourceID = e.SourceID := by
  unfold applyToEdge
  split <;> rfl

theorem applyToEdge_DestID (spm : SPMap) (e : Edge) :
    (applyToEdge spm e).DestID = e.DestID := by
  unfold applyToEdge
  split <;> rfl

theorem lookupNode_applySecurityPolicy (tm : TrafficMap) (spm : SPMap) (nid : String) :
    lookupNode (applySecurityPolicy tm spm) nid
      = (lookupNode tm nid).map
          (fun n => { n with Edges := n.Edges.map (applyToEdge spm) }) := by
  induction tm with
  | nil => rfl
  | cons p rest ih =>
    obtain ⟨k, n⟩ := p
    by_cases h : k = nid
    · simp [applySecurityPolicy, lookupNode, h]
    · simp only [applySecurityPolicy, List.map_cons, lookupNode, if_neg h]
      exact ih

theorem destSvc_isSome_of_required (m : Metric) (h : hasRequiredLabels m = true) :
    m.destination_service_name.isSome = true := by
  simp only [hasRequiredLabels, Bool.and_eq_true] at h
  exact h.1.1.1.1.1.2

theorem applyToEdge_found (spm : SPMap) (e : Edge) (pr : PolicyRates)
    (hk : lookupPolicy spm (e.SourceID ++ " " ++ e.DestID) = some pr) :
    applyToEdge spm e = { e with Metadata := setMeta e.Metadata IsMTLS ((computeRates pr).1 / ((computeRates pr).1 + (computeRates pr).2) * 100) } := by
  unfold applyToEdge
  rw [hk]

/-- Claim C1: for every edge in the TrafficMap whose composite key
"<source-ID> <dest-ID>" is present in the aggregated policy map,
`applySecurityPolicy` writes into that edge's metadata, under the fixed
mTLS key, the value `mtls / (mtls + other) * 100`, where `mtls` is the
rate stored under the label "mutual_tls" (0 if absent) and `other` is
the sum of the rates stored under every other policy label.  The
duplicate-free-keys hypothesis is the invariant of the Go map the
`PolicyRates` association list embeds. -/
theorem C1_mtls_percentage (tm : TrafficMap) (spm : SPMap) (nid : String) (n : Node)
    (e : Edge) (pr : PolicyRates)
    (hn : lookupNode tm nid = some n) (he : e ∈ n.Edges)
    (hk : lookupPolicy spm (e.SourceID ++ " " ++ e.DestID) = some pr)
    (hnd : (pr.map Prod.fst).Nodup) :
    lookupNode (applySecurityPolicy tm spm) nid
      = some { n with Edges := n.Edges.map (applyToEdge spm) } ∧
    applyToEdge spm e ∈ n.Edges.map (applyToEdge spm) ∧
    lookupMeta (applyToEdge spm e).Metadata IsMTLS
      = some (specMtlsRate pr / (specMtlsRate pr + specOtherRate pr) * 100) := by
  refine ⟨?_, ?_, ?_⟩
  · rw [lookupNode_applySecurityPolicy, hn]
    rfl
  · exact List.mem_map_of_mem _ he
  · rw [applyToEdge_found spm e pr hk, computeRates_eq pr hnd]
    exact lookupMeta_setMeta_self _ _ _

/-- Witness for C1: rates {mutual_tls: 8, plaintext: 2} yield 80 and
rates {mutual_tls: 5} alone yield 100. -/
theorem C1_mtls_percentage_witness :
    lookupMeta (applyToEdge exSpm80 exEdgeAB).Metadata IsMTLS = some 80 ∧
    lookupMeta (applyToEdge exSpm100 exEdgeAB).Metadata IsMTLS = some 100 := by
  constructor
  · have h := C1_mtls_percentage exTm exSpm80 "A" { ID := "A", Edges := [exEdgeAB] }
      exEdgeAB [("mutual_tls", 8), ("plaintext", 2)] (by decide) (by decide) (by decide)
      (by decide)
    exact h.2.2.trans
      (by simp +decide [specMtlsRate, specOtherRate, lookupRate, policyMTLS]; norm_num)
  · have h := C1_mtls_percentage exTm exSpm100 "A" { ID := "A", Edges := [exEdgeAB] }
      exEdgeAB [("mutual_tls", 5)] (by decide) (by decide) (by decide) (by decide)
    exact h.2.2.trans
      (by simp +decide [specMtlsRate, specOtherRate, lookupRate, policyMTLS])

/-- Claim C2: for a series with all required labels, when
virtual-service-node injection is enabled, the destination resolves to a
kind other than `service` and the destination service name is present
(which the required-labels guard already ensures), the series
contributes exactly the two observations (caller → synthetic service
node) and (synthetic service node → destination workload/app node), each
carrying the series' rate under its policy label; otherwise (injection
disabled, or destination already of `service` kind) it contributes
exactly the one (caller → destination) observation. -/
theorem C2_service_injection (gt : String) (inj : Bool) (spm : SPMap) (s : Sample)
    (h : hasRequiredLabels s.metric = true) :
    (inj = true →
      (graphId (mDestSvcNs s) (mDestSvc s) (mDestWlNs s) (mDestWl s) (mDestApp s)
        (mDestVer s) gt).2 ≠ NodeTypeService →
      populateSecurityPolicyMap gt inj spm [s] =
        addSecurityPolicy gt
          (addSecurityPolicy gt spm (mCsp s) s.value (mSourceWlNs s) "" (mSourceWl s)
            (mSourceApp s) (mSourceVer s) (mDestSvcNs s) (mDestSvc s) "" "" "" "")
          (mCsp s) s.value (mDestSvcNs s) (mDestSvc s) "" "" "" (mDestSvcNs s)
          (mDestSvc s) (mDestWlNs s) (mDestWl s) (mDestApp s) (mDestVer s)) ∧
    ((inj = false ∨
      (graphId (mDestSvcNs s) (mDestSvc s) (mDestWlNs s) (mDestWl s) (mDestApp s)
        (mDestVer s) gt).2 = NodeTypeService) →
      populateSecurityPolicyMap gt inj spm [s] =
        addSecurityPolicy gt spm (mCsp s) s.value (mSourceWlNs s) "" (mSourceWl s)
          (mSourceApp s) (mSourceVer s) (mDestSvcNs s) (mDestSvc s) (mDestWlNs s)
          (mDestWl s) (mDestApp s) (mDestVer s)) := by
  have hpop : populateSecurityPolicyMap gt inj spm [s] = processSample gt inj spm s := rfl
  have hsvc : s.metric.destination_service_name.isSome = true :=
    destSvc_isSome_of_required _ h
  constructor
  · intro hinj hkind
    have hb : ((graphId (mDestSvcNs s) (mDestSvc s) (mDestWlNs s) (mDestWl s) (mDestApp s)
        (mDestVer s) gt).2 != NodeTypeService) = true := bne_iff_ne.mpr hkind
    rw [hpop]
    simp [processSample, h, hinj, hsvc, hb]
  · intro hor
    rw [hpop]
    rcases hor with hinj | hkind
    · simp [processSample, h, hinj]
    · have hb : ((graphId (mDestSvcNs s) (mDestSvc s) (mDestWlNs s) (mDestWl s) (mDestApp s)
          (mDestVer s) gt).2 != NodeTypeService) = false := by
        rw [hkind]
        exact bne_self_eq_false _
      by_cases hinj : inj = true
      · simp [processSample, h, hinj, hb]
      · simp only [Bool.not_eq_true] at hinj
        simp [processSample, h, hinj]

/-- Witness for C2: the concrete series `exSample` (destination resolving
to a workload-kind node) produces the two split observations with
injection on and the single observation with injection off. -/
theorem C2_service_injection_witness :
    populateSecurityPolicyMap "workload" true [] [exSample] =
      addSecurityPolicy "workload"
        (addSecurityPolicy "workload" [] "mutual_tls" 5 "alpha" "" "w" "x" "v"
          "beta" "s" "" "" "" "")
        "mutual_tls" 5 "beta" "s" "" "" "" "beta" "s" "beta" "dw" "da" "dv" ∧
    populateSecurityPolicyMap "workload" false [] [exSample] =
      addSecurityPolicy "workload" [] "mutual_tls" 5 "alpha" "" "w" "x" "v"
        "beta" "s" "beta" "dw" "da" "dv" := by
  constructor
  · exact (C2_service_injection "workload" true [] exSample (by decide)).1 rfl (by decide)
  · exact (C2_service_injection "workload" false [] exSample (by decide)).2 (Or.inl rfl)

/-- Claim C3: within the Policy Aggregator a later observation for the
same (composite key, policy label) pair replaces the earlier value
rather than summing with it; and because the first query's vector is
populated before the second (inbound) query's vector, any slot the
inbound vector writes ends up with the inbound value, independently of
what the outbound population put there. -/
theorem C3_overwrite_inbound_precedence (gt : String) :
    (∀ (m : SPMap) (csp : String) (v1 v2 : ℚ)
      (sNs sSvc sWl sApp sVer dSNs dSvc dWNs dWl dApp dVer : String),
      slotVal
        (addSecurityPolicy gt
          (addSecurityPolicy gt m csp v1 sNs sSvc sWl sApp sVer dSNs dSvc dWNs dWl dApp dVer)
          csp v2 sNs sSvc sWl sApp sVer dSNs dSvc dWNs dWl dApp dVer)
        (policyKey gt sNs sSvc sWl sApp sVer dSNs dSvc dWNs dWl dApp dVer) csp
        = some v2) ∧
    (∀ (inj : Bool) (m : SPMap) (outVector inVector : List Sample) (k c : String) (w : ℚ),
      slotVal (populateSecurityPolicyMap gt inj [] inVector) k c = some w →
      slotVal (populateSecurityPolicyMap gt inj
        (populateSecurityPolicyMap gt inj m outVector) inVector) k c = some w) := by
  constructor
  · intro m csp v1 v2 sNs sSvc sWl sApp sVer dSNs dSvc dWNs dWl dApp dVer
    exact slotVal_add_self gt _ csp v2 sNs sSvc sWl sApp sVer dSNs dSvc dWNs dWl dApp dVer
  · intro inj m outV inV k c w hw
    rcases populate_slot_det gt inj inV (populateSecurityPolicyMap gt inj m outV) [] k c
      with hsame | ⟨_, h2⟩
    · rw [hsame]
      exact hw
    · exfalso
      have h3 : (some w : Option ℚ) = none := hw.symm.trans h2
      exact absurd h3 (Option.some_ne_none w)

/-- Witness for C3: writing 7 then 3 at the same slot leaves 3 (not 10),
and with overlapping outbound (rate 7) and inbound (rate 3) fixtures the
final stored value is the inbound 3. -/
theorem C3_overwrite_inbound_precedence_witness :
    slotVal
      (addSecurityPolicy "workload"
        (addSecurityPolicy "workload" [] "mutual_tls" 7 "alpha" "" "w" "x" "v"
          "beta" "s" "beta" "dw" "da" "dv")
        "mutual_tls" 3 "alpha" "" "w" "x" "v" "beta" "s" "beta" "dw" "da" "dv")
      (policyKey "workload" "alpha" "" "w" "x" "v" "beta" "s" "beta" "dw" "da" "dv")
      "mutual_tls" = some 3 ∧
    slotVal (populateSecurityPolicyMap "workload" false
      (populateSecurityPolicyMap "workload" false [] [exSampleOut]) [exSampleIn])
      exKey "mutual_tls" = some 3 := by
  constructor
  · exact (C3_overwrite_inbound_precedence "workload").1 [] "mutual_tls" 7 3
      "alpha" "" "w" "x" "v" "beta" "s" "beta" "dw" "da" "dv"
  · exact (C3_overwrite_inbound_precedence "workload").2 false [] [exSampleOut]
      [exSampleIn] exKey "mutual_tls" 3 (by decide)

/-- Claim C4: `applySecurityPolicy` never creates or removes nodes or
edges: the node-ID keys, the node IDs and the per-node (source-ID,
dest-ID) edge-pair lists are unchanged; an edge whose key is absent from
the aggregator is left entirely untouched; and on edges whose key is
found, metadata keys other than the mTLS key are unchanged. -/
theorem C4_frame (tm : TrafficMap) (spm : SPMap) :
    (applySecurityPolicy tm spm).map Prod.fst = tm.map Prod.fst ∧
    (applySecurityPolicy tm spm).map (fun p => p.2.ID) = tm.map (fun p => p.2.ID) ∧
    (applySecurityPolicy tm spm).map (fun p => p.2.Edges.map (fun e => (e.SourceID, e.DestID)))
      = tm.map (fun p => p.2.Edges.map (fun e => (e.SourceID, e.DestID))) ∧
    (∀ e : Edge, lookupPolicy spm (e.SourceID ++ " " ++ e.DestID) = none →
      applyToEdge spm e = e) ∧
    (∀ (e : Edge) (k : String), k ≠ IsMTLS →
      lookupMeta (applyToEdge spm e).Metadata k = lookupMeta e.Metadata k) := by
  refine ⟨?_, ?_, ?_, ?_, ?_⟩
  · simp [applySecurityPolicy, List.map_map, Function.comp]
  · simp [applySecurityPolicy, List.map_map, Function.comp]
  · have hids : ∀ e : Edge,
        ((applyToEdge spm e).SourceID, (applyToEdge spm e).DestID) = (e.SourceID, e.DestID) :=
      fun e => by rw [applyToEdge_SourceID, applyToEdge_DestID]
    simp [applySecurityPolicy, List.map_map, Function.comp, hids]
  · intro e h
    unfold applyToEdge
    rw [h]
  · intro e k hk
    unfold applyToEdge
    cases h : lookupPolicy spm (e.SourceID ++ " " ++ e.DestID) with
    | none => rfl
    | some pr => exact lookupMeta_setMeta_ne e.Metadata IsMTLS _ k hk

/-- Witness for C4: the edge C → D, whose key the concrete aggregator
does not contain, is untouched (its pre-existing metadata included); the
annotated edge A → B keeps its other metadata keys; the node-key list of
the concrete traffic map is unchanged. -/
theorem C4_frame_witness :
    applyToEdge exSpm80 exEdgeCD = exEdgeCD ∧
    lookupMeta (applyToEdge exSpm80 exEdgeAB).Metadata "x" = lookupMeta exEdgeAB.Metadata "x" ∧
    (applySecurityPolicy exTm exSpm80).map Prod.fst = exTm.map Prod.fst := by
  refine ⟨?_, ?_, (C4_frame exTm exSpm80).1⟩
  · exact (C4_frame exTm exSpm80).2.2.2.1 exEdgeCD (by decide)
  · exact (C4_frame exTm exSpm80).2.2.2.2 exEdgeAB "x" (by decide)

/-- Claim C5: a series missing at least one of the eleven required
grouping labels is skipped — it contributes nothing to the aggregator —
while the remaining series are still processed: populating with a vector
equals populating with the vector restricted to its label-complete
series. -/
theorem C5_missing_labels_skipped (gt : String) (inj : Bool) :
    (∀ (m : SPMap) (s : Sample), hasRequiredLabels s.metric = false →
      populateSecurityPolicyMap gt inj m [s] = m) ∧
    (∀ (m : SPMap) (v : List Sample),
      populateSecurityPolicyMap gt inj m v =
        populateSecurityPolicyMap gt inj m
          (v.filter (fun s => hasRequiredLabels s.metric))) := by
  have hskip : ∀ (m : SPMap) (s : Sample), hasRequiredLabels s.metric = false →
      processSample gt inj m s = m := by
    intro m s h
    simp [processSample, h]
  constructor
  · intro m s h
    exact hskip m s h
  · intro m v
    induction v generalizing m with
    | nil => rfl
    | cons s rest ih =>
      by_cases h : hasRequiredLabels s.metric
      · simp only [populateSecurityPolicyMap, List.foldl_cons, List.filter_cons, h, if_true]
        exact ih (processSample gt inj m s)
      · simp only [Bool.not_eq_true] at h
        simp only [populateSecurityPolicyMap, List.foldl_cons, List.filter_cons, h,
          Bool.false_eq_true, if_false]
        rw [hskip m s h]
        exact ih m

/-- Witness for C5: the series missing `connection_security_policy`
contributes nothing, and a vector containing it populates the same
aggregator as the vector without it. -/
theorem C5_missing_labels_skipped_witness :
    populateSecurityPolicyMap "workload" false [] [exSampleNoCsp] = [] ∧
    populateSecurityPolicyMap "workload" false [] [exSampleNoCsp, exSample] =
      populateSecurityPolicyMap "workload" false [] [exSample] := by
  constructor
  · exact (C5_missing_labels_skipped "workload" false).1 [] exSampleNoCsp (by decide)
  · exact (C5_missing_labels_skipped "workload" false).2 [] [exSampleNoCsp, exSample]

/-- Claim C6: if the TrafficMap is empty, `AppendGraph` is a no-op: it
returns without issuing any metrics query, without initializing the
metrics client handle, and without mutating the TrafficMap. -/
theorem C6_empty_noop (a : SecurityPolicyAppender) (oracle : String → Int → List Sample)
    (tm : TrafficMap) (g : Bool) (ns : String) (h : tm.length = 0) :
    AppendGraph a oracle tm g ns = (tm, g, []) := by
  simp [AppendGraph, h]

/-- Witness for C6 at the concrete empty traffic map. -/
theorem C6_empty_noop_witness :
    AppendGraph exAppender (fun _ _ => []) [] false "ns" = ([], false, []) :=
  C6_empty_noop exAppender (fun _ _ => []) [] false "ns" rfl

/-- Claim C7: the percentage computation and the metadata write of
`applySecurityPolicy` are not guarded against the all-rates-zero case:
for an aggregator entry whose policy rates are all zero the denominator
`mtls + other` is zero, yet the division is performed and its result is
still written into the edge metadata. -/
theorem C7_unguarded_zero_denominator (spm : SPMap) (e : Edge) (pr : PolicyRates)
    (hk : lookupPolicy spm (e.SourceID ++ " " ++ e.DestID) = some pr)
    (hz : ∀ p ∈ pr, p.2 = 0) :
    (computeRates pr).1 + (computeRates pr).2 = 0 ∧
    lookupMeta (applyToEdge spm e).Metadata IsMTLS
      = some ((computeRates pr).1 / ((computeRates pr).1 + (computeRates pr).2) * 100) := by
  constructor
  · rw [computeRates, computeRatesAux_zero pr hz]
    norm_num
  · rw [applyToEdge_found spm e pr hk]
    exact lookupMeta_setMeta_self _ _ _

/-- Witness for C7: the aggregator reached by populating from the
concrete zero-rate series holds the all-zero entry for `exKey`, and the
matching edge still gets the mTLS metadata key written. -/
theorem C7_unguarded_zero_denominator_witness :
    lookupPolicy exSpmZero (exEdgeTele.SourceID ++ " " ++ exEdgeTele.DestID)
      = some [("mutual_tls", 0)] ∧
    lookupMeta (applyToEdge exSpmZero exEdgeTele).Metadata IsMTLS = some 0 := by
  have h := C7_unguarded_zero_denominator exSpmZero exEdgeTele [("mutual_tls", 0)]
    (by decide) (by decide)
  refine ⟨by decide, h.2.trans ?_⟩
  simp +decide [computeRates, computeRatesAux, policyMTLS]

/-- Claim C8: with no excluded infrastructure namespaces the inbound
query carries no destination-service-namespace exclusion clause at all
(the spliced clause is the empty string); with a non-empty excluded set
the query carries the negative regex-match clause whose pattern is the
excluded names joined by "|". -/
theorem C8_exclusion_clause (ns : String) (d : Int) (ex : List String) :
    destinationWorkloadNamespaceQuery [] = "" ∧
    (ex = [] → inboundQuery ns ex d = inboundQueryWithClause ns "" d) ∧
    (ex ≠ [] → inboundQuery ns ex d = inboundQueryWithClause ns
      (",destination_service_namespace!~\"" ++ String.intercalate "|" ex ++ "\"") d) := by
  refine ⟨rfl, ?_, ?_⟩
  · intro h
    subst h
    rfl
  · intro h
    unfold inboundQuery destinationWorkloadNamespaceQuery
    rw [if_pos (List.length_pos.mpr h)]

/-- Witness for C8 at a concrete empty and two-element excluded set. -/
theorem C8_exclusion_clause_witness :
    inboundQuery "ns" [] 60 = inboundQueryWithClause "ns" "" 60 ∧
    inboundQuery "ns" ["istio-system", "istio-operator"] 60 =
      inboundQueryWithClause "ns"
        ",destination_service_namespace!~\"istio-system|istio-operator\"" 60 := by
  constructor
  · exact (C8_exclusion_clause "ns" 60 []).2.1 rfl
  · have h := (C8_exclusion_clause "ns" 60 ["istio-system", "istio-operator"]).2.2 (by decide)
    exact h.trans (by rfl)

/-- Counterexample to claim C9 as stated: the invocation of
`AppendGraph` on an empty traffic map issues no metrics query at all,
not exactly two. -/
theorem C9_counterexample :
    (AppendGraph exAppender (fun _ _ => []) [] false "ns").2.2.length ≠ 2 := by
  decide

/-- Claim C9, amended: every invocation of `AppendGraph` on a NON-EMPTY
TrafficMap issues exactly two metrics queries — the outbound
(traffic-entering) query first, then the inbound (traffic-leaving)
query — both evaluated at the same fixed instant `a.QueryTime`. -/
theorem C9_two_queries (a : SecurityPolicyAppender) (oracle : String → Int → List Sample)
    (tm : TrafficMap) (g : Bool) (ns : String) (h : tm.length ≠ 0) :
    (AppendGraph a oracle tm g ns).2.2 =
      [(outboundQuery ns (lookupNsInfo a.Namespaces ns).DurationSeconds, a.QueryTime),
       (inboundQuery ns (getIstioNamespaces a.Namespaces)
         (lookupNsInfo a.Namespaces ns).DurationSeconds, a.QueryTime)] := by
  simp [AppendGraph, h, appendGraphImpl]

/-- Witness for C9 (amended) at a concrete non-empty traffic map. -/
theorem C9_two_queries_witness :
    (AppendGraph exAppender (fun _ _ => []) exTm false "ns").2.2 =
      [(outboundQuery "ns" 0, 0), (inboundQuery "ns" [] 0, 0)] := by
  have h := C9_two_queries exAppender (fun _ _ => []) exTm false "ns" (by decide)
  exact h.trans (by rfl)

/-- Claim C10: `populateSecurityPolicyMap` is idempotent in its vector
argument — populating a map with a vector and then populating the result
with the same vector again yields the same aggregator map (same key
domain, same value at every (key, label) slot) as populating once. -/
theorem C10_populate_idempotent (gt : String) (inj : Bool) (m : SPMap) (v : List Sample) :
    (∀ key : String,
      keyHas (populateSecurityPolicyMap gt inj (populateSecurityPolicyMap gt inj m v) v) key
        = keyHas (populateSecurityPolicyMap gt inj m v) key) ∧
    (∀ key csp : String,
      slotVal (populateSecurityPolicyMap gt inj (populateSecurityPolicyMap gt inj m v) v)
          key csp
        = slotVal (populateSecurityPolicyMap gt inj m v) key csp) := by
  constructor
  · intro key
    rcases populate_key_det gt inj v (populateSecurityPolicyMap gt inj m v) m key
      with h | ⟨h1, _⟩
    · exact h
    · exact h1
  · intro key csp
    rcases populate_slot_det gt inj v (populateSecurityPolicyMap gt inj m v) m key csp
      with h | ⟨h1, _⟩
    · exact h
    · exact h1

end Kiali
